import Mathlib

/-!
Shallow embedding of the EbayListing batch pipeline
(src/FetchBook.py, src/upload_supa.py, src/upload_supaV2.py)
and proofs about its parsing, merging, enrichment-batching,
schema-synchronisation and upload behaviour.
-/

namespace EbayListing

/-! ### Python string helpers

`pyStrip` models `str.strip()` on its default (whitespace) character set,
`pyLower` models `str.lower()` (ASCII case mapping), and `pyInt` models
`int(s)` on an already-stripped string: an optional sign followed by digits,
with single underscores allowed between digit groups. -/

def pyIsSpace (c : Char) : Bool :=
  c = ' ' || c = '\t' || c = '\n' || c = '\r' || c = '\x0b' || c = '\x0c'

def pyStrip (s : String) : String :=
  String.mk (((s.data.dropWhile pyIsSpace).reverse.dropWhile pyIsSpace).reverse)

def pyLower (s : String) : String :=
  String.mk (s.data.map Char.toLower)

/-- After the leading digit of an integer literal: digits, with a single
underscore allowed only between digits. -/
def pyDigitsRest : List Char → Bool
  | [] => true
  | '_' :: c :: cs => c.isDigit && pyDigitsRest cs
  | c :: cs => c.isDigit && pyDigitsRest cs

def digitsVal (ds : List Char) : Nat :=
  ds.foldl (fun n c => 10 * n + (c.toNat - '0'.toNat)) 0

def pyIntDigits (l : List Char) : Option Nat :=
  match l with
  | [] => none
  | c :: cs =>
    if c.isDigit && pyDigitsRest cs then
      some (digitsVal ((c :: cs).filter (fun d => d ≠ '_')))
    else none

/-- `int(s)` for a string with no surrounding whitespace (callers strip first). -/
def pyInt (s : String) : Option Int :=
  match s.data with
  | '+' :: rest => (pyIntDigits rest).map Int.ofNat
  | '-' :: rest => (pyIntDigits rest).map (fun n => -(n : Int))
  | l => (pyIntDigits l).map Int.ofNat

/-! ### Python dict model

A dict is an association list with unique keys maintained by
insert-with-overwrite (`dictInsert` keeps the position of the first
occurrence, like a Python dict). -/

def dictInsert {α : Type} (d : List (String × α)) (k : String) (v : α) :
    List (String × α) :=
  match d with
  | [] => [(k, v)]
  | p :: ps => if p.1 = k then (k, v) :: ps else p :: dictInsert ps k v

def dictLookup {α : Type} (d : List (String × α)) (k : String) : Option α :=
  (d.find? (fun p => p.1 == k)).map Prod.snd

def dictHas {α : Type} (d : List (String × α)) (k : String) : Bool :=
  d.any (fun p => p.1 == k)

/-- Python `a or b` for optional strings (`None` and `""` are falsy). -/
def pyOr (a b : Option String) : Option String :=
  match a with
  | none => b
  | some s => if s = "" then b else some s

/-- A feed row: normalized column name -> stripped string value. -/
abbrev Dict := List (String × String)

/-- A dict whose values may be Python `None`. -/
abbrev PyDict := List (String × Option String)

namespace FetchBook

/-! ### src/FetchBook.py : parsing and filtering (`process_files`)

A feed file is modelled as the list of its CSV rows (each a list of cell
strings): the first row is the banner, the second the header row, the rest
data rows. -/

/-- `normalize_column_name` in FetchBook.py: `name.strip().lower()`. -/
def normalize_column_name (name : String) : String :=
  pyLower (pyStrip name)

/-- `row_dict = {headers[i]: val.strip() for i, val in enumerate(row)}`,
built only when `len(row) <= len(headers)` (otherwise `headers[i]` raises). -/
def buildRow (headers : List String) (row : List String) : Dict :=
  (List.zip headers (row.map pyStrip)).foldl
    (fun d p => dictInsert d p.1 p.2) []

/-- The row loop of `process_files` (FetchBook.py lines 83-91) on one file.
Returns the rows appended to `all_rows` by this file and whether an
exception aborted the remainder of the file (caught by the per-file
`except` at line 94).  Abort paths, in source order:
`int(row[stock_idx].strip())` raising `ValueError`; `headers[i]` raising
`IndexError` while building `row_dict`; `row_dict['ean']` raising
`KeyError` after the row was already appended. -/
def processRows (headers : List String) (stockIdx : Nat) :
    List (List String) → List Dict × Bool
  | [] => ([], false)
  | row :: rest =>
    if row.length ≤ stockIdx then processRows headers stockIdx rest
    else
      match pyInt (pyStrip (row.getD stockIdx "")) with
      | none => ([], true)
      | some n =>
        if n ≤ 4 then processRows headers stockIdx rest
        else if headers.length < row.length then ([], true)
        else
          let d := buildRow headers row
          if dictHas d "ean" then
            let p := processRows headers stockIdx rest
            (d :: p.1, p.2)
          else ([d], true)

/-- The normalized header row of a feed file. -/
def fileHeaders (lines : List (List String)) : List String :=
  match lines with
  | _ :: hdr :: _ => hdr.map normalize_column_name
  | _ => []

/-- Per-file processing of `process_files`: skip the banner, normalize the
headers, locate the `stock` column (file skipped if absent), then run the
row loop; a file too short to have a header row raises before any row is
read and contributes nothing. -/
def fileRows (lines : List (List String)) : List Dict :=
  match lines with
  | [] => []
  | [_] => []
  | _ :: hdr :: rest =>
    let headers := hdr.map normalize_column_name
    match headers.findIdx? (fun h => h = "stock") with
    | none => []
    | some i => (processRows headers i rest).1

/-- `process_files`: the rows collected across all files (per-file failures
are caught per file, so files contribute independently). -/
def processFiles (files : List (List (List String))) : List Dict :=
  (files.map fileRows).flatten

/-! ### src/FetchBook.py : enrichment response normalisation -/

/-- A raw book record of the ISBNdb `data` array, with the fields
`process_book_data` and `fetch_bulk_book_details` read. -/
structure RawBook where
  title : Option String
  synopsis : Option String
  description : Option String
  image : Option String
  authors : List String
  publisher : Option String
  date_published : Option String
  language : Option String
  isbn10 : Option String
  isbn13 : Option String
  pages : Option String
  binding : Option String
deriving DecidableEq

/-- `process_book_data` (FetchBook.py lines 139-153). -/
def process_book_data (b : RawBook) : PyDict :=
  [("title", b.title),
   ("description", pyOr b.synopsis b.description),
   ("cover_image", b.image),
   ("author", some (String.intercalate ", " b.authors)),
   ("publisher", b.publisher),
   ("publication_year", b.date_published),
   ("language", b.language),
   ("isbn10", b.isbn10),
   ("isbn13", b.isbn13),
   ("pages", b.pages),
   ("binding", b.binding)]

/-- The enrichment result mapping: identifier -> normalized book record. -/
abbrev BookMap := List (String × PyDict)

/-- Outcome of one HTTP POST to the bulk books endpoint. -/
inductive ApiResponse
  | ok (books : List RawBook)
  | httpError (status : Nat)
  | otherError
deriving DecidableEq

/-- The dict comprehension of `fetch_bulk_book_details` (lines 121-125):
a record whose `isbn13` field is missing or empty (`book.get(id_type)`
falsy) is dropped; keys are `str(book[id_type]).strip()`. -/
def buildBookMap (books : List RawBook) : BookMap :=
  books.foldl
    (fun m b =>
      match b.isbn13 with
      | some s => if s = "" then m else dictInsert m (pyStrip s) (process_book_data b)
      | none => m) []

/-- `fetch_bulk_book_details` (lines 100-137) for one HTTP attempt, with
`id_type = "isbn13"` as called at line 168.  `Except.error` is a raised
exception escaping the function body: only the 429 branch re-raises (after
sleeping the Retry-After delay); any other HTTP error or any other
exception is logged and `{}` is returned.  An empty identifier list
returns `{}` before any request is made. -/
def fetch_bulk_book_details (identifiers : List String) (resp : ApiResponse) :
    Except Nat BookMap :=
  if identifiers.isEmpty then .ok []
  else
    match resp with
    | .ok books => .ok (buildBookMap books)
    | .httpError s => if s = 429 then .error s else .ok []
    | .otherError => .ok []

/-- The tenacity `@retry(stop=stop_after_attempt(3))` wrapper around
`fetch_bulk_book_details`: attempt `i` sees response `attempts i`; a raised
exception triggers the next attempt, and after 3 raising attempts a
`RetryError` (modelled as `Except.error ()`) escapes. -/
def retryGo (identifiers : List String) (attempts : Nat → ApiResponse) :
    Nat → Nat → Except Unit BookMap
  | 0, _ => .error ()
  | fuel + 1, i =>
    match fetch_bulk_book_details identifiers (attempts i) with
    | .ok m => .ok m
    | .error _ => retryGo identifiers attempts fuel (i + 1)

/-- The decorated `fetch_bulk_book_details` as the orchestrator calls it:
up to 3 attempts. -/
def fetch_with_retry (identifiers : List String) (attempts : Nat → ApiResponse) :
    Except Unit BookMap :=
  retryGo identifiers attempts 3 0

/-! ### src/FetchBook.py : batch orchestration (`fetch_book_data`) -/

/-- `api_data.update(result)`. -/
def updateDict (d₁ d₂ : BookMap) : BookMap :=
  d₂.foldl (fun d p => dictInsert d p.1 p.2) d₁

/-- State of the `while` loop of `fetch_book_data` (lines 160-180):
current `batch_num`, accumulated `api_data`, and the log of bulk requests
issued so far. -/
structure FetchState where
  batchNum : Nat
  apiData : BookMap
  requests : List (List String)
deriving DecidableEq

/-- One-call-per-chunk loop of `fetch_book_data`, `BATCH_SIZE = 100`.
`call batch` is the decorated bulk fetch: `Except.error` is an exception
reaching the `except` at line 176 (a `RetryError`), in which case the code
logs, checks `batch_num * BATCH_SIZE >= total_eans` (false inside the
loop) and `continue`s WITHOUT incrementing `batch_num`.  `fuel` bounds the
number of iterations we unfold; `none` means the loop did not terminate
within `fuel` iterations. -/
def fetchLoop (call : List String → Except Unit BookMap) (eans : List String) :
    Nat → FetchState → Option FetchState
  | 0, _ => none
  | fuel + 1, st =>
    if st.batchNum * 100 < eans.length then
      let batch := (eans.drop (st.batchNum * 100)).take 100
      match call batch with
      | .ok result =>
        fetchLoop call eans fuel
          ⟨st.batchNum + 1, updateDict st.apiData result, st.requests ++ [batch]⟩
      | .error _ =>
        if eans.length ≤ st.batchNum * 100 then some st
        else fetchLoop call eans fuel ⟨st.batchNum, st.apiData, st.requests ++ [batch]⟩
    else some st

/-- `fetch_book_data` (lines 155-183). -/
def fetch_book_data (call : List String → Except Unit BookMap)
    (eans : List String) (fuel : Nat) : Option FetchState :=
  fetchLoop call eans fuel ⟨0, [], []⟩

/-! ### src/FetchBook.py : reconciliation and merge (`main`, lines 212-227) -/

/-- `v not in (None, "", "null")`. -/
def keepVal : Option String → Bool
  | none => false
  | some v => decide (v ≠ "" ∧ v ≠ "null")

/-- A feed row viewed as a dict of non-`None` values. -/
def pdOfRow (row : Dict) : PyDict :=
  row.map (fun p => (p.1, some p.2))

/-- `{**row, **book_data}`: start from the feed row's entries, overlay the
enrichment entries (enrichment winning on shared keys). -/
def overlay (row : Dict) (book : PyDict) : PyDict :=
  book.foldl (fun d p => dictInsert d p.1 p.2) (pdOfRow row)

/-- `merged = {k.lower(): v for k, v in {**row, **book_data}.items()
if v not in (None, "", "null")}` (FetchBook.py lines 218-219). -/
def mergeRow (row : Dict) (book : PyDict) : Dict :=
  ((overlay row book).filter (fun p => keepVal p.2)).foldl
    (fun d p => dictInsert d (pyLower p.1) (p.2.getD "")) []

/-- `clean_row = {k.lower(): v for k, v in row.items()}` (line 222). -/
def lowerClean (row : Dict) : Dict :=
  row.foldl (fun d p => dictInsert d (pyLower p.1) p.2) []

/-- Whether the merge loop places a row in the matched output:
`ean = row['ean'].strip()` followed by `ean in api_data`. -/
def isMatchedRow (api : BookMap) (row : Dict) : Bool :=
  match dictLookup row "ean" with
  | some e => dictHas api (pyStrip e)
  | none => false

/-- The enrichment record the merge loop would use for a row. -/
def apiBook (api : BookMap) (row : Dict) : PyDict :=
  match dictLookup row "ean" with
  | some e => (dictLookup api (pyStrip e)).getD []
  | none => []

/-- The record-processing loop of `main` (lines 212-227): each row goes to
the matched output iff its stripped `ean` is a key of `api_data`, to the
unmatched output otherwise; a row raising (no `ean` key) is logged and
dropped by the per-record `except` at line 225. -/
def mergeLoop (api : BookMap) : List Dict → List Dict × List Dict
  | [] => ([], [])
  | row :: rest =>
    let p := mergeLoop api rest
    match dictLookup row "ean" with
    | none => p
    | some e =>
      match dictLookup api (pyStrip e) with
      | some book => (mergeRow row book :: p.1, p.2)
      | none => (p.1, lowerClean row :: p.2)

end FetchBook

/-! ### src/upload_supa.py and src/upload_supaV2.py -/

/-- A schema operation issued against the store.  The constructors cover
every SQL statement the two `check_and_create_table` functions can issue,
plus the destructive operations they could in principle have issued, so
that "no destructive operation" is a statement about the output and not
about the type. -/
inductive SchemaOp
  | addColumn (col : String)
  | addPrimaryKey (col : String)
  | createTableV1 (cols : List String)
  | createTableV2 (otherCols : List String)
  | dropColumn (col : String)
  | alterColumnType (col : String)
deriving DecidableEq

/-- Destructive schema operations (never issued). -/
def SchemaOp.isDestructive : SchemaOp → Bool
  | .dropColumn _ => true
  | .alterColumnType _ => true
  | _ => false

/-- Additive nullable-text column alteration
(`ALTER TABLE ... ADD COLUMN IF NOT EXISTS col TEXT`). -/
def SchemaOp.isAddColumn : SchemaOp → Bool
  | .addColumn _ => true
  | _ => false

namespace UploadSupa

/-- `normalize_column_name` (upload_supa.py lines 108-112, identical in
upload_supaV2.py lines 128-132): strip, lowercase, spaces to underscores,
every non-alphanumeric character to an underscore, truncate to 63
characters, falling back to `unknown_column` on an empty result. -/
def normalize_column_name (name : String) : String :=
  let cs := (pyStrip name).data.map Char.toLower
  let cs := cs.map (fun c => if c = ' ' then '_' else c)
  let cs := cs.map (fun c => if c.isAlphanum || c = '_' then c else '_')
  if cs.isEmpty then "unknown_column" else String.mk (cs.take 63)

/-- `check_and_create_table` (upload_supa.py lines 32-58) as the list of
schema operations it issues.  `tablePresent` is whether the probe select
succeeds; `existing` is what `get_existing_columns` returned (the keys of
a sample row, or `[]`).  If the table is missing the error message
contains `does not exist` and a fresh table is created with an `id SERIAL
PRIMARY KEY` column plus every incoming column as `TEXT`. -/
def check_and_create_table (tablePresent : Bool) (existing dataColumns : List String) :
    List SchemaOp :=
  if tablePresent then
    (dataColumns.filter (fun c => !existing.contains c)).map SchemaOp.addColumn
  else
    [SchemaOp.createTableV1 dataColumns]

end UploadSupa

namespace UploadSupaV2

/-- `check_and_create_table` (upload_supaV2.py lines 34-75): on an existing
table, one additive `ADD COLUMN IF NOT EXISTS ... TEXT` per missing column
followed by an `ALTER TABLE ... ADD PRIMARY KEY (ean)` whose failure is
swallowed; on a missing table, one `CREATE TABLE` with `ean TEXT PRIMARY
KEY` plus every other incoming column as `TEXT`. -/
def check_and_create_table (tablePresent : Bool) (existing dataColumns : List String) :
    List SchemaOp :=
  if tablePresent then
    (dataColumns.filter (fun c => !existing.contains c)).map SchemaOp.addColumn
      ++ [SchemaOp.addPrimaryKey "ean"]
  else
    [SchemaOp.createTableV2 (dataColumns.filter (fun c => c ≠ "ean"))]

/-! The persistent store, for the upsert path of `safe_batch_insert`
(upload_supaV2.py lines 78-81). -/

/-- The `ean` key of a row. -/
def eanOf (r : Dict) : Option String :=
  dictLookup r "ean"

/-- Whether some row of the store has the given `ean` value. -/
def hasEan (store : List Dict) (e : String) : Bool :=
  store.any (fun r => eanOf r == some e)

/-- Modelled from the spec: the remote store is an external collaborator
"with upsert-by-key semantics"; this is the effect on the stored rows of
`supabase.table(...).upsert(batch, on_conflict="ean",
ignore_duplicates=True)` issued by `safe_batch_insert` (upload_supaV2.py
line 81): each batch row in order is appended unless a stored row already
has its `ean` key value (a row whose `ean` is SQL NULL never conflicts). -/
def upsertBatch (store : List Dict) (batch : List Dict) : List Dict :=
  batch.foldl
    (fun s r =>
      match eanOf r with
      | some e => if hasEan s e then s else s ++ [r]
      | none => s ++ [r]) store

end UploadSupaV2

/-! ### The upload loop (identical in upload_supa.py lines 78-106 and
upload_supaV2.py lines 97-125, `BATCH_SIZE` 100 resp. 5000) -/

/-- `range(0, total, B)` slicing: the list of batches
`rows[i*B : i*B + B]`. -/
def numBatches (total B : Nat) : Nat :=
  (total + B - 1) / B

def batchesOf (B : Nat) (rows : List Dict) : List (List Dict) :=
  (List.range (numBatches rows.length B)).map
    (fun i => (rows.drop (i * B)).take B)

/-- The tenacity `stop_after_attempt(3)` wrapper of `safe_batch_insert`:
the batch succeeds iff one of its three attempts succeeds. -/
def safeInsertOk (attemptOk : Nat → Bool) : Bool :=
  attemptOk 0 || attemptOk 1 || attemptOk 2

/-- The final state of `upload_csv_to_supabase`: rows counted as inserted,
the total row count of the report line, the recorded failed batches, and
whether the timestamped `failed_batches_*.json` side file was written. -/
structure UploadReport where
  inserted : Nat
  total : Nat
  failedBatches : List (List Dict)
  sideFileWritten : Bool
deriving DecidableEq

/-- Assemble the report from the loop state `(inserted, failed_batches)`:
the side file is written iff `failed_batches` is non-empty. -/
def mkReport (acc : Nat × List (List Dict)) (total : Nat) : UploadReport :=
  ⟨acc.1, total, acc.2, !acc.2.isEmpty⟩

/-- The batch loop and report of `upload_csv_to_supabase`; `attempts i j`
tells whether attempt `j` of batch index `i` succeeds against the store.
A batch whose three attempts all fail raises `RetryError`, is appended to
`failed_batches`, and the loop continues with the next batch. -/
def uploadRun (B : Nat) (attempts : Nat → Nat → Bool) (rows : List Dict) :
    UploadReport :=
  mkReport
    ((batchesOf B rows).enum.foldl
      (fun (acc : Nat × List (List Dict)) p =>
        if safeInsertOk (attempts p.1) then (acc.1 + p.2.length, acc.2)
        else (acc.1, acc.2 ++ [p.2]))
      (0, []))
    rows.length

/-! ### Concrete inputs used by the batching and rate-limit theorems -/

/-- 250 distinct identifiers, as in the spec's batching scenario. -/
def eans250 : List String :=
  (List.range 250).map (fun n => toString n)

/-- A decorated bulk call that always succeeds (with an empty data array). -/
def goodCall : List String → Except Unit FetchBook.BookMap :=
  fun _ => .ok []

/-- A decorated bulk call that raises (`RetryError`, e.g. from persistent
rate limiting) on exactly the second chunk — the one starting with
identifier `"100"` — and succeeds on every other chunk. -/
def badCall : List String → Except Unit FetchBook.BookMap :=
  fun b => if b.headD "" = "100" then .error () else .ok []

/-! ## Generic dict lemmas -/

theorem dictLookup_cons_of_eq {α : Type} (p : String × α) (ps : List (String × α))
    (k : String) (h : p.1 = k) : dictLookup (p :: ps) k = some p.2 := by
  unfold dictLookup
  rw [List.find?_cons_of_pos _ (by simp [beq_iff_eq, h])]
  rfl

theorem dictLookup_cons_of_ne {α : Type} (p : String × α) (ps : List (String × α))
    (k : String) (h : p.1 ≠ k) : dictLookup (p :: ps) k = dictLookup ps k := by
  unfold dictLookup
  rw [List.find?_cons_of_neg _ (by simp [beq_iff_eq]; exact h)]

theorem dictLookup_insert {α : Type} (d : List (String × α)) (k k' : String) (v : α) :
    dictLookup (dictInsert d k v) k' = if k' = k then some v else dictLookup d k' := by
  induction d with
  | nil =>
    by_cases h : k' = k
    · subst h
      simp [dictInsert, dictLookup_cons_of_eq]
    · rw [if_neg h]
      show dictLookup [(k, v)] k' = dictLookup [] k'
      rw [dictLookup_cons_of_ne _ _ _ (fun e => h e.symm)]
  | cons p ps ih =>
    by_cases hpk : p.1 = k
    · show dictLookup (if p.1 = k then (k, v) :: ps else p :: dictInsert ps k v) k' = _
      rw [if_pos hpk]
      by_cases h : k' = k
      · subst h
        rw [if_pos rfl, dictLookup_cons_of_eq _ _ _ rfl]
      · rw [if_neg h, dictLookup_cons_of_ne _ _ _ (fun e => h e.symm),
          dictLookup_cons_of_ne p ps k' (fun e => h (hpk ▸ e).symm)]
    · show dictLookup (if p.1 = k then (k, v) :: ps else p :: dictInsert ps k v) k' = _
      rw [if_neg hpk]
      by_cases hp' : p.1 = k'
      · have hk'k : k' ≠ k := fun e => hpk (hp'.trans e)
        rw [if_neg hk'k, dictLookup_cons_of_eq _ _ _ hp', dictLookup_cons_of_eq _ _ _ hp']
      · rw [dictLookup_cons_of_ne _ _ _ hp', dictLookup_cons_of_ne p ps k' hp', ih]

theorem dictHas_eq_isSome {α : Type} (d : List (String × α)) (k : String) :
    dictHas d k = (dictLookup d k).isSome := by
  induction d with
  | nil => rfl
  | cons p ps ih =>
    by_cases h : p.1 = k
    · rw [dictLookup_cons_of_eq _ _ _ h]
      simp [dictHas, h]
    · rw [dictLookup_cons_of_ne _ _ _ h]
      have hb : (p.1 == k) = false := by simp [beq_iff_eq]; exact h
      simp only [dictHas, List.any_cons, hb, Bool.false_or] at ih ⊢
      exact ih

theorem dictInsert_keys_mem {α : Type} (d : List (String × α)) (k : String) (v : α)
    (k' : String) :
    k' ∈ (dictInsert d k v).map Prod.fst ↔ k' = k ∨ k' ∈ d.map Prod.fst := by
  induction d with
  | nil => simp [dictInsert]
  | cons p ps ih =>
    by_cases h : p.1 = k
    all_goals simp [dictInsert, h, ih]
    all_goals tauto

theorem dictInsert_keys_nodup {α : Type} (d : List (String × α)) (k : String) (v : α)
    (h : (d.map Prod.fst).Nodup) : ((dictInsert d k v).map Prod.fst).Nodup := by
  induction d with
  | nil => simp [dictInsert]
  | cons p ps ih =>
    simp only [List.map_cons, List.nodup_cons] at h
    by_cases hpk : p.1 = k
    · simpa [dictInsert, hpk, List.nodup_cons] using h
    · simp only [dictInsert, if_neg hpk, List.map_cons, List.nodup_cons]
      refine ⟨fun hmem => ?_, ih h.2⟩
      rcases (dictInsert_keys_mem ps k v p.1).1 hmem with h1 | h1
      · exact hpk h1
      · exact h.1 h1

theorem foldl_insert_keys_mem {β γ : Type} (f : β → String) (g : β → γ)
    (l : List β) (acc : List (String × γ)) (k' : String) :
    (k' ∈ ((l.foldl (fun d p => dictInsert d (f p) (g p)) acc).map Prod.fst)) ↔
      k' ∈ l.map f ∨ k' ∈ acc.map Prod.fst := by
  induction l generalizing acc with
  | nil => simp
  | cons p ps ih =>
    simp only [List.foldl_cons, List.map_cons, List.mem_cons]
    rw [ih, dictInsert_keys_mem]
    tauto

theorem foldl_insert_keys_nodup {β γ : Type} (f : β → String) (g : β → γ)
    (l : List β) (acc : List (String × γ)) (h : (acc.map Prod.fst).Nodup) :
    ((l.foldl (fun d p => dictInsert d (f p) (g p)) acc).map Prod.fst).Nodup := by
  induction l generalizing acc with
  | nil => exact h
  | cons p ps ih => exact ih _ (dictInsert_keys_nodup _ _ _ h)

theorem find?_congr {α : Type} (p q : α → Bool) (l : List α)
    (h : ∀ x ∈ l, p x = q x) : l.find? p = l.find? q := by
  induction l with
  | nil => rfl
  | cons a as ih =>
    have ha := h a (List.mem_cons_self a as)
    by_cases hp : p a = true
    · rw [List.find?_cons_of_pos _ hp, List.find?_cons_of_pos _ (ha ▸ hp)]
    · rw [List.find?_cons_of_neg _ hp, List.find?_cons_of_neg _ (ha ▸ hp)]
      exact ih (fun x hx => h x (List.mem_cons_of_mem a hx))

theorem foldl_insert_lookup {β γ : Type} (f : β → String) (g : β → γ)
    (l : List β) (acc : List (String × γ)) (hnd : (l.map f).Nodup) (k : String) :
    dictLookup (l.foldl (fun d p => dictInsert d (f p) (g p)) acc) k =
      match l.find? (fun p => f p == k) with
      | some p => some (g p)
      | none => dictLookup acc k := by
  induction l generalizing acc with
  | nil => rfl
  | cons p ps ih =>
    simp only [List.map_cons, List.nodup_cons] at hnd
    simp only [List.foldl_cons]
    rw [ih _ hnd.2]
    by_cases hk : f p = k
    · have hfind : ps.find? (fun q => f q == k) = none := by
        rw [List.find?_eq_none]
        intro x hx
        simp only [beq_iff_eq]
        intro he
        exact hnd.1 (by rw [← hk] at he; exact he ▸ List.mem_map_of_mem f hx)
      rw [hfind, List.find?_cons_of_pos _ (by simp [beq_iff_eq, hk])]
      simp only [dictLookup_insert, if_pos hk.symm]
    · rw [List.find?_cons_of_neg _ (by simp [beq_iff_eq]; exact hk)]
      cases hf : ps.find? (fun q => f q == k) with
      | some q => rfl
      | none =>
        simp only [dictLookup_insert, if_neg (fun e : k = f p => hk e.symm)]

theorem find?_filter_of_nodup {α : Type} (l : List (String × α)) (q : String × α → Bool)
    (k : String) (hnd : (l.map Prod.fst).Nodup) :
    (l.filter q).find? (fun p => p.1 == k) =
      match l.find? (fun p => p.1 == k) with
      | some p => if q p then some p else none
      | none => none := by
  induction l with
  | nil => rfl
  | cons e es ih =>
    simp only [List.map_cons, List.nodup_cons] at hnd
    by_cases he : e.1 = k
    · rw [List.find?_cons_of_pos _ (by simp [beq_iff_eq, he])]
      have hnone : ∀ (m : List (String × α)), (∀ x ∈ m, x ∈ es) →
          m.find? (fun p => p.1 == k) = none := by
        intro m hm
        rw [List.find?_eq_none]
        intro x hx
        simp only [beq_iff_eq]
        intro hxk
        apply hnd.1
        rw [he, ← hxk]
        exact List.mem_map_of_mem Prod.fst (hm x hx)
      by_cases hq : q e = true
      · simp only [List.filter_cons, hq, if_pos]
        rw [List.find?_cons_of_pos _ (by simp [beq_iff_eq, he])]
      · simp only [List.filter_cons, hq]
        simp only [Bool.false_eq_true, if_false]
        rw [hnone (es.filter q) (fun x hx => List.mem_of_mem_filter hx)]
    · rw [List.find?_cons_of_neg _ (by simp [beq_iff_eq]; exact he)]
      by_cases hq : q e = true
      · simp only [List.filter_cons, hq, if_pos]
        rw [List.find?_cons_of_neg _ (by simp [beq_iff_eq]; exact he)]
        exact ih hnd.2
      · simp only [List.filter_cons, hq, Bool.false_eq_true, if_false]
        exact ih hnd.2


/-! ## C10 : column-name sanitisation -/

/-- Claim C10: for every input string, `normalize_column_name` (the
column-name normalizer of upload_supa.py and upload_supaV2.py, applied to
every CSV field name before any schema operation) returns a non-empty
string of at most 63 characters whose characters are all alphanumeric or
underscores, falling back to the literal `unknown_column` when the
sanitised character list is empty. -/
theorem normalize_column_name_sanitized (s : String) :
    UploadSupa.normalize_column_name s ≠ ""
    ∧ (UploadSupa.normalize_column_name s).length ≤ 63
    ∧ ∀ c ∈ (UploadSupa.normalize_column_name s).data, c.isAlphanum = true ∨ c = '_' := by
  unfold UploadSupa.normalize_column_name
  set cs0 := ((pyStrip s).data.map Char.toLower).map (fun c => if c = ' ' then '_' else c)
    with hcs0
  set cs := cs0.map (fun c => if c.isAlphanum || c = '_' then c else '_') with hcs
  by_cases h : cs.isEmpty
  · simp only [h, if_pos]
    refine ⟨by decide, by decide, ?_⟩
    decide
  · simp only [h, Bool.false_eq_true, if_false]
    have hne : cs ≠ [] := fun e => by simp [e] at h
    refine ⟨?_, ?_, ?_⟩
    · intro he
      have : cs.take 63 = [] := congrArg String.data he
      rcases List.take_eq_nil_iff.1 this with h63 | hnil
      · exact absurd h63 (by decide)
      · exact hne hnil
    · show (cs.take 63).length ≤ 63
      rw [List.length_take]
      exact min_le_left _ _
    · intro c hc
      have hc' : c ∈ cs := List.take_subset 63 cs hc
      rw [hcs] at hc'
      rcases List.mem_map.1 hc' with ⟨c0, _, hmap⟩
      by_cases hcond : c0.isAlphanum || c0 = '_'
      · rw [if_pos hcond] at hmap
        subst hmap
        rcases Bool.or_eq_true_iff.1 hcond with h1 | h1
        · exact Or.inl h1
        · exact Or.inr (by simpa using h1)
      · rw [if_neg hcond] at hmap
        exact Or.inr hmap.symm

/-- Witness for C10 at a concrete column name. -/
theorem normalize_column_name_sanitized_witness :
    UploadSupa.normalize_column_name " Publication Year! " ≠ ""
    ∧ (UploadSupa.normalize_column_name " Publication Year! ").length ≤ 63
    ∧ ('p'.isAlphanum = true ∨ 'p' = '_') :=
  ⟨(normalize_column_name_sanitized " Publication Year! ").1,
   (normalize_column_name_sanitized " Publication Year! ").2.1,
   (normalize_column_name_sanitized " Publication Year! ").2.2 'p' (by decide)⟩

/-! ## C9 : upsert idempotence -/

theorem upsertBatch_append (store batch : List Dict) :
    ∃ t, UploadSupaV2.upsertBatch store batch = store ++ t := by
  induction batch generalizing store with
  | nil => exact ⟨[], by simp [UploadSupaV2.upsertBatch]⟩
  | cons r rs ih =>
    show ∃ t, UploadSupaV2.upsertBatch
      (match UploadSupaV2.eanOf r with
       | some e => if UploadSupaV2.hasEan store e then store else store ++ [r]
       | none => store ++ [r]) rs = store ++ t
    cases he : UploadSupaV2.eanOf r with
    | none =>
      rcases ih (store ++ [r]) with ⟨t, ht⟩
      exact ⟨[r] ++ t, by rw [ht, List.append_assoc]⟩
    | some e =>
      by_cases hh : UploadSupaV2.hasEan store e
      · simp only [hh, if_pos]
        exact ih store
      · simp only [hh, Bool.false_eq_true, if_false]
        rcases ih (store ++ [r]) with ⟨t, ht⟩
        exact ⟨[r] ++ t, by rw [ht, List.append_assoc]⟩

theorem hasEan_mono (store : List Dict) (batch : List Dict) (e : String)
    (h : UploadSupaV2.hasEan store e = true) :
    UploadSupaV2.hasEan (UploadSupaV2.upsertBatch store batch) e = true := by
  rcases upsertBatch_append store batch with ⟨t, ht⟩
  rw [ht]
  unfold UploadSupaV2.hasEan at h ⊢
  rw [List.any_append, h, Bool.true_or]

theorem hasEan_after_upsert (store batch : List Dict) (r : Dict) (e : String)
    (hr : r ∈ batch) (he : UploadSupaV2.eanOf r = some e) :
    UploadSupaV2.hasEan (UploadSupaV2.upsertBatch store batch) e = true := by
  induction batch generalizing store with
  | nil => cases hr
  | cons r0 rs ih =>
    show UploadSupaV2.hasEan (UploadSupaV2.upsertBatch
      (match UploadSupaV2.eanOf r0 with
       | some e0 => if UploadSupaV2.hasEan store e0 then store else store ++ [r0]
       | none => store ++ [r0]) rs) e = true
    rcases List.mem_cons.1 hr with rfl | hr'
    · rw [he]
      by_cases hh : UploadSupaV2.hasEan store e
      · simp only [hh, if_pos]
        exact hasEan_mono store rs e hh
      · simp only [hh, Bool.false_eq_true, if_false]
        apply hasEan_mono
        unfold UploadSupaV2.hasEan
        rw [List.any_append]
        simp [UploadSupaV2.hasEan, he]
    · cases UploadSupaV2.eanOf r0 with
      | none => exact ih _ hr'
      | some e0 =>
        by_cases hh : UploadSupaV2.hasEan store e0
        · simp only [hh, if_pos]
          exact ih store hr'
        · simp only [hh, Bool.false_eq_true, if_false]
          exact ih _ hr'

theorem upsertBatch_noop (store batch : List Dict)
    (h : ∀ r ∈ batch, ∃ e, UploadSupaV2.eanOf r = some e ∧
          UploadSupaV2.hasEan store e = true) :
    UploadSupaV2.upsertBatch store batch = store := by
  induction batch with
  | nil => rfl
  | cons r rs ih =>
    rcases h r (List.mem_cons_self r rs) with ⟨e, he, hh⟩
    show UploadSupaV2.upsertBatch
      (match UploadSupaV2.eanOf r with
       | some e0 => if UploadSupaV2.hasEan store e0 then store else store ++ [r]
       | none => store ++ [r]) rs = store
    rw [he]
    simp only [hh, if_pos]
    exact ih (fun r' hr' => h r' (List.mem_cons_of_mem r hr'))

/-- Claim C9: with the key-based upsert path of `safe_batch_insert`
(upload_supaV2.py line 81, `on_conflict="ean"`), upserting the same batch
twice leaves the store unchanged after the first upsert — in particular the
row count is unchanged and no duplicate rows are created for keys already
present. -/
theorem upsert_same_batch_twice_row_count (store batch : List Dict)
    (h : ∀ r ∈ batch, (UploadSupaV2.eanOf r).isSome = true) :
    UploadSupaV2.upsertBatch (UploadSupaV2.upsertBatch store batch) batch
        = UploadSupaV2.upsertBatch store batch
    ∧ (UploadSupaV2.upsertBatch (UploadSupaV2.upsertBatch store batch) batch).length
        = (UploadSupaV2.upsertBatch store batch).length := by
  have heq : UploadSupaV2.upsertBatch (UploadSupaV2.upsertBatch store batch) batch
      = UploadSupaV2.upsertBatch store batch := by
    apply upsertBatch_noop
    intro r hr
    rcases Option.isSome_iff_exists.1 (h r hr) with ⟨e, he⟩
    exact ⟨e, he, hasEan_after_upsert store batch r e hr he⟩
  exact ⟨heq, by rw [heq]⟩

/-- Witness for C9: a concrete store and batch. -/
theorem upsert_same_batch_twice_row_count_witness :
    UploadSupaV2.upsertBatch
        (UploadSupaV2.upsertBatch [[("ean", "111"), ("title", "x")]]
          [[("ean", "111"), ("title", "y")], [("ean", "222")]])
        [[("ean", "111"), ("title", "y")], [("ean", "222")]]
      = UploadSupaV2.upsertBatch [[("ean", "111"), ("title", "x")]]
          [[("ean", "111"), ("title", "y")], [("ean", "222")]]
    ∧ (UploadSupaV2.upsertBatch
        (UploadSupaV2.upsertBatch [[("ean", "111"), ("title", "x")]]
          [[("ean", "111"), ("title", "y")], [("ean", "222")]])
        [[("ean", "111"), ("title", "y")], [("ean", "222")]]).length
      = (UploadSupaV2.upsertBatch [[("ean", "111"), ("title", "x")]]
          [[("ean", "111"), ("title", "y")], [("ean", "222")]]).length :=
  upsert_same_batch_twice_row_count
    [[("ean", "111"), ("title", "x")]]
    [[("ean", "111"), ("title", "y")], [("ean", "222")]]
    (by decide)

/-! ## C8 : upload failure isolation -/

theorem uploadFold_characterization (attempts : Nat → Nat → Bool)
    (l : List (Nat × List Dict)) (acc : Nat × List (List Dict)) :
    l.foldl
        (fun (acc : Nat × List (List Dict)) p =>
          if safeInsertOk (attempts p.1) then (acc.1 + p.2.length, acc.2)
          else (acc.1, acc.2 ++ [p.2])) acc
      = (acc.1 + ((l.filter (fun p => safeInsertOk (attempts p.1))).map
            (fun p => p.2.length)).sum,
         acc.2 ++ (l.filter (fun p => !safeInsertOk (attempts p.1))).map Prod.snd) := by
  induction l generalizing acc with
  | nil => simp
  | cons p ps ih =>
    cases h : safeInsertOk (attempts p.1) with
    | true =>
      simp only [List.foldl_cons, h, if_pos, List.filter_cons, Bool.not_true,
        Bool.false_eq_true, if_false, List.map_cons, List.sum_cons, if_true]
      rw [ih]
      simp [Nat.add_assoc]
    | false =>
      simp only [List.foldl_cons, h, Bool.false_eq_true, if_false, List.filter_cons,
        Bool.not_false, if_true, List.map_cons]
      rw [ih]
      simp [List.append_assoc]

/-- Claim C8: in the batch loop of `upload_csv_to_supabase` (identical in
upload_supa.py and upload_supaV2.py; `B` is the deployment's `BATCH_SIZE`),
a batch is recorded as failed exactly when all 3 of its insert attempts
fail; failed batches never stop later batches from being processed, the
side file is written exactly when some batch failed, and the final report
counts as inserted exactly the rows of the successful batches out of the
total row count. -/
theorem upload_failure_isolation (B : Nat) (attempts : Nat → Nat → Bool)
    (rows : List Dict) :
    (uploadRun B attempts rows).failedBatches
        = ((batchesOf B rows).enum.filter
            (fun p => !safeInsertOk (attempts p.1))).map Prod.snd
    ∧ (uploadRun B attempts rows).inserted
        = (((batchesOf B rows).enum.filter
            (fun p => safeInsertOk (attempts p.1))).map (fun p => p.2.length)).sum
    ∧ (uploadRun B attempts rows).total = rows.length
    ∧ (uploadRun B attempts rows).sideFileWritten
        = !(uploadRun B attempts rows).failedBatches.isEmpty := by
  unfold uploadRun mkReport
  rw [uploadFold_characterization]
  refine ⟨rfl, by simp, rfl, rfl⟩

/-! ## C7 : schema synchronisation is additive -/

theorem addColumn_injective : Function.Injective SchemaOp.addColumn :=
  fun _ _ h => SchemaOp.addColumn.inj h

theorem count_addColumn_in_missing (cols existing : List String) (c : String)
    (hnd : cols.Nodup) :
    ((cols.filter (fun x => !existing.contains x)).map SchemaOp.addColumn).count
        (SchemaOp.addColumn c)
      = if c ∈ cols ∧ c ∉ existing then 1 else 0 := by
  rw [List.count_map_of_injective _ _ addColumn_injective]
  have hmem : c ∈ cols.filter (fun x => !existing.contains x) ↔
      c ∈ cols ∧ c ∉ existing := by
    rw [List.mem_filter]
    constructor
    · rintro ⟨h1, h2⟩
      refine ⟨h1, fun hm => ?_⟩
      rw [Bool.not_eq_true', ← Bool.not_eq_true] at h2
      exact h2 (List.elem_iff.2 hm)
    · rintro ⟨h1, h2⟩
      refine ⟨h1, ?_⟩
      rw [Bool.not_eq_true', ← Bool.not_eq_true]
      exact fun hc => h2 (List.elem_iff.1 hc)
  by_cases h : c ∈ cols ∧ c ∉ existing
  · rw [if_pos h]
    exact List.count_eq_one_of_mem (hnd.filter _) (hmem.2 h)
  · rw [if_neg h]
    exact List.count_eq_zero_of_not_mem (fun hm => h (hmem.1 hm))

/-- Claim C7: for any table state and incoming column set, the schema-sync
functions `check_and_create_table` of upload_supa.py and upload_supaV2.py
issue zero destructive operations; on an existing table they issue exactly
one additive text-column alteration per incoming column missing from the
table (so exactly one when exactly one column is missing), and on a
missing table they create it fresh from the full incoming column list
instead of failing. -/
theorem check_and_create_table_additive :
    (∀ te : Bool, ∀ ex cols : List String,
      ∀ op ∈ UploadSupa.check_and_create_table te ex cols, op.isDestructive = false)
    ∧ (∀ te : Bool, ∀ ex cols : List String,
      ∀ op ∈ UploadSupaV2.check_and_create_table te ex cols, op.isDestructive = false)
    ∧ (∀ ex cols : List String,
      (UploadSupa.check_and_create_table true ex cols).countP SchemaOp.isAddColumn
        = (cols.filter (fun c => !ex.contains c)).length)
    ∧ (∀ ex cols : List String,
      (UploadSupaV2.check_and_create_table true ex cols).countP SchemaOp.isAddColumn
        = (cols.filter (fun c => !ex.contains c)).length)
    ∧ (∀ ex cols : List String, ∀ c : String, cols.Nodup →
      (UploadSupa.check_and_create_table true ex cols).count (SchemaOp.addColumn c)
        = if c ∈ cols ∧ c ∉ ex then 1 else 0)
    ∧ (∀ ex cols : List String, ∀ c : String, cols.Nodup →
      (UploadSupaV2.check_and_create_table true ex cols).count (SchemaOp.addColumn c)
        = if c ∈ cols ∧ c ∉ ex then 1 else 0)
    ∧ (∀ ex cols : List String,
      UploadSupa.check_and_create_table false ex cols = [SchemaOp.createTableV1 cols])
    ∧ (∀ ex cols : List String,
      UploadSupaV2.check_and_create_table false ex cols
        = [SchemaOp.createTableV2 (cols.filter (fun c => c ≠ "ean"))]) := by
  refine ⟨?_, ?_, ?_, ?_, ?_, ?_, fun ex cols => rfl, fun ex cols => rfl⟩
  · intro te ex cols op hop
    cases te with
    | true =>
      simp only [UploadSupa.check_and_create_table, if_pos] at hop
      rcases List.mem_map.1 hop with ⟨c, _, rfl⟩
      rfl
    | false =>
      simp only [UploadSupa.check_and_create_table, Bool.false_eq_true, if_false,
        List.mem_singleton] at hop
      subst hop
      rfl
  · intro te ex cols op hop
    cases te with
    | true =>
      simp only [UploadSupaV2.check_and_create_table, if_pos] at hop
      rcases List.mem_append.1 hop with h | h
      · rcases List.mem_map.1 h with ⟨c, _, rfl⟩
        rfl
      · rw [List.mem_singleton] at h
        subst h
        rfl
    | false =>
      simp only [UploadSupaV2.check_and_create_table, Bool.false_eq_true, if_false,
        List.mem_singleton] at hop
      subst hop
      rfl
  · intro ex cols
    simp only [UploadSupa.check_and_create_table, if_pos]
    rw [List.countP_map]
    have : (SchemaOp.isAddColumn ∘ SchemaOp.addColumn) = fun _ => true := rfl
    rw [this, List.countP_true]
  · intro ex cols
    simp only [UploadSupaV2.check_and_create_table, if_pos]
    rw [List.countP_append, List.countP_map]
    have h1 : (SchemaOp.isAddColumn ∘ SchemaOp.addColumn) = fun _ => true := rfl
    have h2 : List.countP SchemaOp.isAddColumn [SchemaOp.addPrimaryKey "ean"] = 0 := rfl
    rw [h1, List.countP_true, h2, Nat.add_zero]
  · intro ex cols c hnd
    simp only [UploadSupa.check_and_create_table, if_pos]
    exact count_addColumn_in_missing cols ex c hnd
  · intro ex cols c hnd
    simp only [UploadSupaV2.check_and_create_table, if_pos]
    rw [List.count_append, count_addColumn_in_missing cols ex c hnd]
    have : (List.count (SchemaOp.addColumn c) [SchemaOp.addPrimaryKey "ean"]) = 0 :=
      List.count_eq_zero_of_not_mem (by simp)
    rw [this, Nat.add_zero]

/-- Witness for C7: a table missing exactly the column `publication_year`
gets exactly one additive alteration (and none destructive). -/
theorem check_and_create_table_additive_witness :
    (UploadSupa.check_and_create_table true ["ean", "title"]
        ["ean", "title", "publication_year"]).count
        (SchemaOp.addColumn "publication_year") = 1
    ∧ ∀ op ∈ UploadSupa.check_and_create_table true ["ean", "title"]
        ["ean", "title", "publication_year"], op.isDestructive = false := by
  constructor
  · have h := check_and_create_table_additive.2.2.2.2.1 ["ean", "title"]
      ["ean", "title", "publication_year"] "publication_year" (by decide)
    rw [h, if_pos (by decide)]
  · exact check_and_create_table_additive.1 true ["ean", "title"]
      ["ean", "title", "publication_year"]

/-! ## C2 : matched/unmatched partition -/

/-- Claim C2: in the merge step of `main` (FetchBook.py lines 212-227),
every filtered feed record carrying an identifier is placed in the matched
output exactly when its stripped `ean` is a key of the enrichment result
mapping and in the unmatched output otherwise; the two outputs are the
corresponding filters of the input in order, so they partition the
filtered records with no overlap, no duplication and no omission. -/
theorem merge_partition (api : FetchBook.BookMap) (rows : List Dict)
    (h : ∀ r ∈ rows, (dictLookup r "ean").isSome = true) :
    (FetchBook.mergeLoop api rows).1
        = (rows.filter (fun r => FetchBook.isMatchedRow api r)).map
            (fun r => FetchBook.mergeRow r (FetchBook.apiBook api r))
    ∧ (FetchBook.mergeLoop api rows).2
        = (rows.filter (fun r => !FetchBook.isMatchedRow api r)).map
            FetchBook.lowerClean
    ∧ (FetchBook.mergeLoop api rows).1.length
        + (FetchBook.mergeLoop api rows).2.length = rows.length := by
  induction rows with
  | nil => exact ⟨rfl, rfl, rfl⟩
  | cons row rest ih =>
    have hrest := ih (fun r hr => h r (List.mem_cons_of_mem row hr))
    rcases Option.isSome_iff_exists.1 (h row (List.mem_cons_self row rest)) with ⟨e, he⟩
    have hmatched : FetchBook.isMatchedRow api row
        = (dictLookup api (pyStrip e)).isSome := by
      unfold FetchBook.isMatchedRow
      rw [he]
      exact dictHas_eq_isSome _ _
    cases hl : dictLookup api (pyStrip e) with
    | some book =>
      have hm : FetchBook.isMatchedRow api row = true := by
        rw [hmatched, hl]
        rfl
      have hstep : FetchBook.mergeLoop api (row :: rest)
          = (FetchBook.mergeRow row book :: (FetchBook.mergeLoop api rest).1,
             (FetchBook.mergeLoop api rest).2) := by
        simp only [FetchBook.mergeLoop, he, hl]
      have hbook : FetchBook.apiBook api row = book := by
        unfold FetchBook.apiBook
        rw [he]
        show (dictLookup api (pyStrip e)).getD [] = book
        rw [hl]
        rfl
      rw [hstep]
      simp only [List.filter_cons, hm, Bool.not_true, Bool.false_eq_true, if_false,
        if_pos, List.map_cons, List.length_cons]
      refine ⟨by rw [hrest.1, hbook], hrest.2.1, ?_⟩
      have := hrest.2.2
      omega
    | none =>
      have hm : FetchBook.isMatchedRow api row = false := by
        rw [hmatched, hl]
        rfl
      have hstep : FetchBook.mergeLoop api (row :: rest)
          = ((FetchBook.mergeLoop api rest).1,
             FetchBook.lowerClean row :: (FetchBook.mergeLoop api rest).2) := by
        simp only [FetchBook.mergeLoop, he, hl]
      rw [hstep]
      simp only [List.filter_cons, hm, Bool.not_false, Bool.false_eq_true, if_false,
        if_true, List.map_cons, List.length_cons]
      refine ⟨hrest.1, by rw [hrest.2.1], ?_⟩
      have := hrest.2.2
      omega

/-- Witness for C2 at a concrete enrichment map and record list. -/
theorem merge_partition_witness :
    (FetchBook.mergeLoop [("111", [("title", some "New")])]
        [[("ean", "111"), ("title", "Old")], [("ean", "333"), ("x", "y")]]).1
      = ([[("ean", "111"), ("title", "Old")], [("ean", "333"), ("x", "y")]].filter
          (fun r => FetchBook.isMatchedRow [("111", [("title", some "New")])] r)).map
          (fun r => FetchBook.mergeRow r
            (FetchBook.apiBook [("111", [("title", some "New")])] r))
    ∧ (FetchBook.mergeLoop [("111", [("title", some "New")])]
        [[("ean", "111"), ("title", "Old")], [("ean", "333"), ("x", "y")]]).2
      = ([[("ean", "111"), ("title", "Old")], [("ean", "333"), ("x", "y")]].filter
          (fun r => !FetchBook.isMatchedRow [("111", [("title", some "New")])] r)).map
          FetchBook.lowerClean
    ∧ (FetchBook.mergeLoop [("111", [("title", some "New")])]
        [[("ean", "111"), ("title", "Old")], [("ean", "333"), ("x", "y")]]).1.length
      + (FetchBook.mergeLoop [("111", [("title", some "New")])]
        [[("ean", "111"), ("title", "Old")], [("ean", "333"), ("x", "y")]]).2.length
      = [[("ean", "111"), ("title", "Old")], [("ean", "333"), ("x", "y")]].length :=
  merge_partition [("111", [("title", some "New")])]
    [[("ean", "111"), ("title", "Old")], [("ean", "333"), ("x", "y")]] (by decide)

/-! ## C3 : a stock parse failure aborts the rest of the file -/

theorem processRows_step_skip (headers : List String) (stockIdx : Nat)
    (row : List String) (rest : List (List String)) (h : row.length ≤ stockIdx) :
    FetchBook.processRows headers stockIdx (row :: rest)
      = FetchBook.processRows headers stockIdx rest := by
  simp only [FetchBook.processRows, if_pos h]

theorem processRows_step_abort (headers : List String) (stockIdx : Nat)
    (row : List String) (rest : List (List String)) (h : ¬ row.length ≤ stockIdx)
    (hp : pyInt (pyStrip (row.getD stockIdx "")) = none) :
    FetchBook.processRows headers stockIdx (row :: rest) = ([], true) := by
  simp only [FetchBook.processRows, if_neg h, hp]

theorem processRows_step_low (headers : List String) (stockIdx : Nat)
    (row : List String) (rest : List (List String)) (n : Int)
    (h : ¬ row.length ≤ stockIdx)
    (hp : pyInt (pyStrip (row.getD stockIdx "")) = some n) (h2 : n ≤ 4) :
    FetchBook.processRows headers stockIdx (row :: rest)
      = FetchBook.processRows headers stockIdx rest := by
  simp only [FetchBook.processRows, if_neg h, hp, if_pos h2]

theorem processRows_step_ragged (headers : List String) (stockIdx : Nat)
    (row : List String) (rest : List (List String)) (n : Int)
    (h : ¬ row.length ≤ stockIdx)
    (hp : pyInt (pyStrip (row.getD stockIdx "")) = some n) (h2 : ¬ n ≤ 4)
    (h3 : headers.length < row.length) :
    FetchBook.processRows headers stockIdx (row :: rest) = ([], true) := by
  simp only [FetchBook.processRows, if_neg h, hp, if_neg h2, if_pos h3]

theorem processRows_step_keep (headers : List String) (stockIdx : Nat)
    (row : List String) (rest : List (List String)) (n : Int)
    (h : ¬ row.length ≤ stockIdx)
    (hp : pyInt (pyStrip (row.getD stockIdx "")) = some n) (h2 : ¬ n ≤ 4)
    (h3 : ¬ headers.length < row.length)
    (h4 : dictHas (FetchBook.buildRow headers row) "ean" = true) :
    FetchBook.processRows headers stockIdx (row :: rest)
      = (FetchBook.buildRow headers row
          :: (FetchBook.processRows headers stockIdx rest).1,
         (FetchBook.processRows headers stockIdx rest).2) := by
  simp only [FetchBook.processRows, if_neg h, hp, if_neg h2, if_neg h3, h4, if_true]

theorem processRows_step_noean (headers : List String) (stockIdx : Nat)
    (row : List String) (rest : List (List String)) (n : Int)
    (h : ¬ row.length ≤ stockIdx)
    (hp : pyInt (pyStrip (row.getD stockIdx "")) = some n) (h2 : ¬ n ≤ 4)
    (h3 : ¬ headers.length < row.length)
    (h4 : dictHas (FetchBook.buildRow headers row) "ean" = false) :
    FetchBook.processRows headers stockIdx (row :: rest)
      = ([FetchBook.buildRow headers row], true) := by
  simp only [FetchBook.processRows, if_neg h, hp, if_neg h2, if_neg h3, h4,
    Bool.false_eq_true, if_false]

/-- Counterexample to C3 as stated: in a file whose first data row has the
unparsable stock value `"abc"`, the following valid row (`ean` 222, stock
10) is NOT retained — `int(...)` raises out of the row loop to the
per-file handler, so nothing of the file survives; the same file without
the bad row retains that valid row. -/
theorem row_parse_failure_aborts_file_counterexample :
    FetchBook.fileRows [["BANNER"], ["EAN", "Stock"], ["111", "abc"], ["222", "10"]] = []
    ∧ FetchBook.fileRows [["BANNER"], ["EAN", "Stock"], ["222", "10"]]
        = [[("ean", "222"), ("stock", "10")]] := by
  exact ⟨rfl, rfl⟩

/-- Claim C3 amended: a row whose stock value fails integer parsing raises
`ValueError` out of the row loop into the per-file handler: the rows of
that file accepted before it are kept, but the remaining rows of the same
file are skipped; the failure never aborts the run — every other file's
contribution is unaffected. -/
theorem stock_parse_failure_skips_file_remainder :
    (∀ (headers : List String) (stockIdx : Nat) (pre post : List (List String))
        (bad : List String),
      (FetchBook.processRows headers stockIdx pre).2 = false →
      stockIdx < bad.length →
      pyInt (pyStrip (bad.getD stockIdx "")) = none →
      FetchBook.processRows headers stockIdx (pre ++ bad :: post)
        = ((FetchBook.processRows headers stockIdx pre).1, true))
    ∧ (∀ (fs₁ : List (List (List String))) (f : List (List String))
        (fs₂ : List (List (List String))),
      FetchBook.processFiles (fs₁ ++ f :: fs₂)
        = FetchBook.processFiles fs₁ ++ FetchBook.fileRows f
            ++ FetchBook.processFiles fs₂) := by
  constructor
  · intro headers stockIdx pre post bad
    induction pre with
    | nil =>
      intro _ hlen hbad
      rw [List.nil_append,
        processRows_step_abort headers stockIdx bad post (Nat.not_le.2 hlen) hbad]
      rfl
    | cons r rs ih =>
      intro hpre hlen hbad
      rw [List.cons_append]
      by_cases h1 : r.length ≤ stockIdx
      · rw [processRows_step_skip headers stockIdx r rs h1] at hpre
        rw [processRows_step_skip headers stockIdx r (rs ++ bad :: post) h1,
          processRows_step_skip headers stockIdx r rs h1]
        exact ih hpre hlen hbad
      · cases hp : pyInt (pyStrip (r.getD stockIdx "")) with
        | none =>
          rw [processRows_step_abort headers stockIdx r rs h1 hp] at hpre
          simp at hpre
        | some n =>
          by_cases h2 : n ≤ 4
          · rw [processRows_step_low headers stockIdx r rs n h1 hp h2] at hpre
            rw [processRows_step_low headers stockIdx r (rs ++ bad :: post) n h1 hp h2,
              processRows_step_low headers stockIdx r rs n h1 hp h2]
            exact ih hpre hlen hbad
          · by_cases h3 : headers.length < r.length
            · rw [processRows_step_ragged headers stockIdx r rs n h1 hp h2 h3] at hpre
              simp at hpre
            · by_cases h4 : dictHas (FetchBook.buildRow headers r) "ean" = true
              · rw [processRows_step_keep headers stockIdx r rs n h1 hp h2 h3 h4] at hpre
                rw [processRows_step_keep headers stockIdx r (rs ++ bad :: post) n
                    h1 hp h2 h3 h4,
                  processRows_step_keep headers stockIdx r rs n h1 hp h2 h3 h4,
                  ih hpre hlen hbad]
              · rw [Bool.not_eq_true] at h4
                rw [processRows_step_noean headers stockIdx r rs n h1 hp h2 h3 h4] at hpre
                simp at hpre
  · intro fs₁ f fs₂
    unfold FetchBook.processFiles
    rw [List.map_append, List.map_cons, List.flatten_append, List.flatten_cons,
      List.append_assoc]

/-- Witness for the amended C3: a concrete file where the row before the
parse failure is kept and the row after it is lost. -/
theorem stock_parse_failure_skips_file_remainder_witness :
    FetchBook.processRows ["ean", "stock"] 1
        ([["111", "9"]] ++ ["222", "x"] :: [["333", "8"]])
      = ((FetchBook.processRows ["ean", "stock"] 1 [["111", "9"]]).1, true) :=
  stock_parse_failure_skips_file_remainder.1 ["ean", "stock"] 1
    [["111", "9"]] [["333", "8"]] ["222", "x"] (by decide) (by decide) (by decide)

/-! ## C4 : every retained record has a parsed stock strictly above 4 -/

theorem zip_map_fst_sublist {α : Type} (l₁ : List String) (l₂ : List α) :
    ((List.zip l₁ l₂).map Prod.fst).Sublist l₁ := by
  induction l₁ generalizing l₂ with
  | nil => simp
  | cons a as ih =>
    cases l₂ with
    | nil => simp
    | cons b bs =>
      simp only [List.zip_cons_cons, List.map_cons]
      exact (ih bs).cons₂ a

theorem find_zip (l₁ l₂ : List String) (i : Nat) (k : String)
    (hnd : l₁.Nodup) (hi : i < l₂.length) (hlen : l₂.length ≤ l₁.length)
    (hk : l₁[i]? = some k) :
    (List.zip l₁ l₂).find? (fun p => p.1 == k) = some (k, l₂.getD i "") := by
  induction l₁ generalizing l₂ i with
  | nil =>
    exact absurd (Nat.lt_of_lt_of_le hi hlen) (Nat.not_lt_zero i)
  | cons a as ih =>
    cases l₂ with
    | nil => exact absurd hi (Nat.not_lt_zero i)
    | cons b bs =>
      cases i with
      | zero =>
        have ha : a = k := by simpa using hk
        rw [List.zip_cons_cons, List.find?_cons_of_pos _ (by simp [beq_iff_eq, ha])]
        subst ha
        rfl
      | succ j =>
        have hk' : as[j]? = some k := by simpa using hk
        have hkmem : k ∈ as := by
          rcases List.getElem?_eq_some_iff.1 hk' with ⟨hj, he⟩
          exact he ▸ List.getElem_mem hj
        have hank : a ≠ k := by
          intro e
          rw [List.nodup_cons] at hnd
          exact hnd.1 (e ▸ hkmem)
        rw [List.zip_cons_cons, List.find?_cons_of_neg _ (by simp [beq_iff_eq]; exact hank)]
        have := ih bs j (List.nodup_cons.1 hnd).2 (by simpa using hi) (by simpa using hlen) hk'
        rw [this]
        rfl

theorem buildRow_lookup (headers row : List String) (stockIdx : Nat) (k : String)
    (hnd : headers.Nodup) (hi : stockIdx < row.length)
    (hlen : row.length ≤ headers.length) (hk : headers[stockIdx]? = some k) :
    dictLookup (FetchBook.buildRow headers row) k
      = some (pyStrip (row.getD stockIdx "")) := by
  unfold FetchBook.buildRow
  rw [foldl_insert_lookup Prod.fst Prod.snd _ []
    (((zip_map_fst_sublist headers (row.map pyStrip))).nodup hnd) k]
  have hz := find_zip headers (row.map pyStrip) stockIdx k hnd
    (by simpa using hi) (by simpa using hlen) hk
  have hpred : (fun (p : String × String) => Prod.fst p == k) = (fun p => p.1 == k) := rfl
  rw [hpred, hz]
  have : (row.map pyStrip).getD stockIdx "" = pyStrip (row.getD stockIdx "") := by
    rw [List.getD_eq_getElem?_getD, List.getD_eq_getElem?_getD, List.getElem?_map,
      List.getElem?_eq_getElem hi]
    rfl
  rw [this]

theorem processRows_stock (headers : List String) (stockIdx : Nat)
    (hnd : headers.Nodup) (hk : headers[stockIdx]? = some "stock") :
    ∀ rows : List (List String),
      ∀ d ∈ (FetchBook.processRows headers stockIdx rows).1,
        ∃ s n, dictLookup d "stock" = some s ∧ pyInt s = some n ∧ 4 < n := by
  intro rows
  induction rows with
  | nil => intro d hd; cases hd
  | cons row rest ih =>
    intro d hd
    by_cases h1 : row.length ≤ stockIdx
    · rw [processRows_step_skip headers stockIdx row rest h1] at hd
      exact ih d hd
    · cases hp : pyInt (pyStrip (row.getD stockIdx "")) with
      | none =>
        rw [processRows_step_abort headers stockIdx row rest h1 hp] at hd
        cases hd
      | some n =>
        by_cases h2 : n ≤ 4
        · rw [processRows_step_low headers stockIdx row rest n h1 hp h2] at hd
          exact ih d hd
        · by_cases h3 : headers.length < row.length
          · rw [processRows_step_ragged headers stockIdx row rest n h1 hp h2 h3] at hd
            cases hd
          · have hkeep : dictLookup (FetchBook.buildRow headers row) "stock"
                = some (pyStrip (row.getD stockIdx "")) :=
              buildRow_lookup headers row stockIdx "stock" hnd (Nat.not_le.1 h1)
                (Nat.not_lt.1 h3) hk
            by_cases h4 : dictHas (FetchBook.buildRow headers row) "ean" = true
            · rw [processRows_step_keep headers stockIdx row rest n h1 hp h2 h3 h4] at hd
              rcases List.mem_cons.1 hd with rfl | hd'
              · exact ⟨_, n, hkeep, hp, Int.not_le.1 h2⟩
              · exact ih d hd'
            · rw [Bool.not_eq_true] at h4
              rw [processRows_step_noean headers stockIdx row rest n h1 hp h2 h3 h4] at hd
              rcases List.mem_singleton.1 hd with rfl
              exact ⟨_, n, hkeep, hp, Int.not_le.1 h2⟩

theorem findIdx?_found (p : String → Bool) (l : List String) :
    ∀ i : Nat, l.findIdx? p = some i → ∃ a, l[i]? = some a ∧ p a = true := by
  induction l with
  | nil => intro i h; cases h
  | cons a as ih =>
    intro i h
    rw [List.findIdx?_cons] at h
    by_cases hp : p a = true
    · rw [if_pos hp] at h
      cases h
      exact ⟨a, by simp, hp⟩
    · rw [if_neg hp, List.findIdx?_succ] at h
      rcases Option.map_eq_some'.1 h with ⟨j, hj, he⟩
      subst he
      rcases ih j hj with ⟨b, hb, hpb⟩
      exact ⟨b, by simpa using hb, hpb⟩

/-- Claim C4: every `FeedRecord` retained by parse-and-filter carries a
`stock` value that parses as an integer strictly greater than 4; rows with
a missing stock cell or an unparsable stock value are never retained
(hypothesis: each file's normalized header row has no duplicate column
names, the file-format convention). -/
theorem retained_records_stock_gt_four (files : List (List (List String)))
    (h : ∀ f ∈ files, (FetchBook.fileHeaders f).Nodup) :
    ∀ d ∈ FetchBook.processFiles files,
      ∃ s n, dictLookup d "stock" = some s ∧ pyInt s = some n ∧ 4 < n := by
  intro d hd
  unfold FetchBook.processFiles at hd
  rcases List.mem_flatten.1 hd with ⟨l, hl, hdl⟩
  rcases List.mem_map.1 hl with ⟨f, hf, rfl⟩
  have hhd := h f hf
  revert hdl
  unfold FetchBook.fileRows at *
  match f with
  | [] => intro hdl; cases hdl
  | [_] => intro hdl; cases hdl
  | _ :: hdr :: rest =>
    have hhd' : (hdr.map FetchBook.normalize_column_name).Nodup := hhd
    cases hidx : (hdr.map FetchBook.normalize_column_name).findIdx?
        (fun h => h = "stock") with
    | none => intro hdl; simp only [hidx] at hdl; cases hdl
    | some i =>
      intro hdl
      simp only [hidx] at hdl
      rcases findIdx?_found _ _ i hidx with ⟨a, ha, hpa⟩
      have : a = "stock" := by simpa using hpa
      subst this
      exact processRows_stock (hdr.map FetchBook.normalize_column_name) i hhd' ha
        rest d hdl

/-- Witness for C4: a concrete run retaining one record with stock 10. -/
theorem retained_records_stock_gt_four_witness :
    ∃ s n, dictLookup [("ean", "222"), ("stock", "10")] "stock" = some s
      ∧ pyInt s = some n ∧ 4 < n :=
  retained_records_stock_gt_four [[["BANNER"], ["EAN", "Stock"], ["222", "10"]]]
    (by decide) [("ean", "222"), ("stock", "10")] (by decide)

/-! ## C5 : enrichment batching and the stuck failed chunk -/

theorem fetchLoop_succ_ok (call : List String → Except Unit FetchBook.BookMap)
    (eans : List String) (fuel bn : Nat) (ad : FetchBook.BookMap)
    (rq : List (List String)) (res : FetchBook.BookMap)
    (hin : bn * 100 < eans.length)
    (hok : call ((eans.drop (bn * 100)).take 100) = .ok res) :
    FetchBook.fetchLoop call eans (fuel + 1) ⟨bn, ad, rq⟩
      = FetchBook.fetchLoop call eans fuel
          ⟨bn + 1, FetchBook.updateDict ad res,
           rq ++ [(eans.drop (bn * 100)).take 100]⟩ := by
  simp only [FetchBook.fetchLoop, hok]
  rw [if_pos hin]

theorem fetchLoop_succ_err (call : List String → Except Unit FetchBook.BookMap)
    (eans : List String) (fuel bn : Nat) (ad : FetchBook.BookMap)
    (rq : List (List String))
    (hin : bn * 100 < eans.length)
    (herr : call ((eans.drop (bn * 100)).take 100) = .error ()) :
    FetchBook.fetchLoop call eans (fuel + 1) ⟨bn, ad, rq⟩
      = FetchBook.fetchLoop call eans fuel
          ⟨bn, ad, rq ++ [(eans.drop (bn * 100)).take 100]⟩ := by
  simp only [FetchBook.fetchLoop, herr]
  rw [if_pos hin, if_neg (Nat.not_le.2 hin)]

set_option maxRecDepth 100000 in
theorem fetchLoop_stuck (fuel : Nat) :
    ∀ (ad : FetchBook.BookMap) (rq : List (List String)),
      FetchBook.fetchLoop badCall eans250 fuel ⟨1, ad, rq⟩ = none := by
  induction fuel with
  | zero => intro ad rq; rfl
  | succ m ih =>
    intro ad rq
    rw [fetchLoop_succ_err badCall eans250 m 1 ad rq (by decide) (by rfl)]
    exact ih ad _

set_option maxRecDepth 100000 in
/-- Claim C5: the orchestrator `fetch_book_data` does partition the
identifiers into consecutive chunks of at most 100 in input order (250
identifiers: exactly 3 requests of sizes 100, 100, 50, first conjunct),
but a chunk whose decorated request raises is NOT skipped: the `except`
branch at FetchBook.py lines 176-180 never increments `batch_num`, so the
loop re-issues the same failing chunk forever and never reaches the later
chunks (second conjunct: no amount of fuel lets the loop terminate once
the second chunk fails persistently). -/
theorem fetch_book_data_batching_and_stuck_failed_chunk :
    (FetchBook.fetch_book_data goodCall eans250 4).map
        (fun st => st.requests.map List.length) = some [100, 100, 50]
    ∧ ∀ fuel : Nat, FetchBook.fetch_book_data badCall eans250 fuel = none := by
  constructor
  · rfl
  · intro fuel
    cases fuel with
    | zero => rfl
    | succ m =>
      unfold FetchBook.fetch_book_data
      rw [fetchLoop_succ_ok badCall eans250 m 0 [] [] [] (by decide) (by rfl)]
      exact fetchLoop_stuck m _ _

/-! ## C6 : bulk-call result mapping vs the 429 re-raise -/

/-- Counterexample to C6 as stated: when every attempt for a non-empty
batch answers `429 Too Many Requests`, `fetch_bulk_book_details` re-raises
each time (after sleeping the Retry-After delay) and the tenacity wrapper
gives up after 3 attempts, so a `RetryError` — not a mapping — escapes the
batch boundary. -/
theorem rate_limit_exception_escapes_counterexample :
    FetchBook.fetch_with_retry ["9780000000000"]
        (fun _ => FetchBook.ApiResponse.httpError 429) = .error () := by
  rfl

theorem buildBookMap_acc_keys (books : List FetchBook.RawBook) :
    ∀ (acc : FetchBook.BookMap) (k : String),
      (dictLookup
          (books.foldl
            (fun m b =>
              match b.isbn13 with
              | some s =>
                if s = "" then m
                else dictInsert m (pyStrip s) (FetchBook.process_book_data b)
              | none => m) acc) k).isSome = true →
        (dictLookup acc k).isSome = true
        ∨ ∃ b ∈ books, ∃ s, b.isbn13 = some s ∧ s ≠ "" ∧ pyStrip s = k := by
  induction books with
  | nil => intro acc k h; exact Or.inl h
  | cons b bs ih =>
    intro acc k h
    rw [List.foldl_cons] at h
    cases hb : b.isbn13 with
    | none =>
      simp only [hb] at h
      rcases ih acc k h with h1 | ⟨b', hb', hs⟩
      · exact Or.inl h1
      · exact Or.inr ⟨b', List.mem_cons_of_mem b hb', hs⟩
    | some s =>
      simp only [hb] at h
      by_cases hs : s = ""
      · rw [if_pos hs] at h
        rcases ih acc k h with h1 | ⟨b', hb', hs'⟩
        · exact Or.inl h1
        · exact Or.inr ⟨b', List.mem_cons_of_mem b hb', hs'⟩
      · rw [if_neg hs] at h
        rcases ih _ k h with h1 | ⟨b', hb', hs'⟩
        · rw [dictLookup_insert] at h1
          by_cases hk : k = pyStrip s
          · exact Or.inr ⟨b, List.mem_cons_self b bs, s, hb, hs, hk.symm⟩
          · rw [if_neg hk] at h1
            exact Or.inl h1
        · exact Or.inr ⟨b', List.mem_cons_of_mem b hb', hs'⟩

/-- Claim C6 amended: a bulk enrichment call yields a mapping (empty on
batch failure) for every outcome EXCEPT a 429 response — the 429 branch
re-raises (after honoring Retry-After), so persistent rate limiting makes
an exception escape the batch boundary after the retry limit; a returned
record lacking (or with a falsy) `isbn13` field contributes nothing to the
result mapping, so absence from the map — never a null-valued entry — is
the no-data signal. -/
theorem fetch_bulk_result_mapping :
    (∀ (ids : List String) (resp : FetchBook.ApiResponse),
      resp ≠ FetchBook.ApiResponse.httpError 429 →
      ∃ m, FetchBook.fetch_bulk_book_details ids resp = .ok m)
    ∧ (∀ (ids : List String) (s : Nat), ids.isEmpty = false → s ≠ 429 →
      FetchBook.fetch_bulk_book_details ids (.httpError s) = .ok [])
    ∧ (∀ (books : List FetchBook.RawBook) (k : String),
      (dictLookup (FetchBook.buildBookMap books) k).isSome = true →
      ∃ b ∈ books, ∃ s, b.isbn13 = some s ∧ s ≠ "" ∧ pyStrip s = k) := by
  refine ⟨?_, ?_, ?_⟩
  · intro ids resp hresp
    unfold FetchBook.fetch_bulk_book_details
    by_cases hids : ids.isEmpty
    · rw [if_pos hids]
      exact ⟨[], rfl⟩
    · rw [if_neg hids]
      cases resp with
      | ok books => exact ⟨FetchBook.buildBookMap books, rfl⟩
      | httpError s =>
        have hs : s ≠ 429 := fun e => hresp (by rw [e])
        exact ⟨[], by simp only [if_neg hs]⟩
      | otherError => exact ⟨[], rfl⟩
  · intro ids s hids hs
    unfold FetchBook.fetch_bulk_book_details
    rw [if_neg (by rw [hids]; exact Bool.false_ne_true)]
    simp only [if_neg hs]
  · intro books k h
    rcases buildBookMap_acc_keys books [] k h with h1 | h1
    · cases h1
    · exact h1

/-- Witness for the amended C6 at concrete inputs: a 500 error yields the
empty mapping, and a record with identifier present lands in the map. -/
theorem fetch_bulk_result_mapping_witness :
    (∃ m, FetchBook.fetch_bulk_book_details ["9780000000000"]
        FetchBook.ApiResponse.otherError = .ok m)
    ∧ FetchBook.fetch_bulk_book_details ["9780000000000"] (.httpError 500) = .ok []
    ∧ ∃ b ∈ [(⟨some "T", none, none, none, [], none, none, none, none,
          some "9780000000000", none, none⟩ : FetchBook.RawBook)],
        ∃ s, FetchBook.RawBook.isbn13 b = some s ∧ s ≠ "" ∧ pyStrip s = "9780000000000" :=
  ⟨fetch_bulk_result_mapping.1 ["9780000000000"] FetchBook.ApiResponse.otherError
      (by decide),
   fetch_bulk_result_mapping.2.1 ["9780000000000"] 500 (by decide) (by decide),
   fetch_bulk_result_mapping.2.2
      [⟨some "T", none, none, none, [], none, none, none, none,
        some "9780000000000", none, none⟩] "9780000000000" (by decide)⟩

/-! ## C1 : merge field-overlay policy -/

/-- Counterexample to C1 as stated: with feed `title="Old"` and enrichment
`title=""`, the dict comprehension at FetchBook.py lines 218-219 first
lets the enrichment value override the feed value (`{**row, **book_data}`)
and then drops the key because the value is empty — the merged record has
NO `title` entry at all, not `"Old"`.  The claim's second example does
hold: feed `title=""` overlaid with enrichment `title="New"` gives
`"New"`. -/
theorem merge_drops_feed_value_counterexample :
    dictLookup (FetchBook.mergeRow [("ean", "111"), ("title", "Old")]
        (FetchBook.process_book_data
          ⟨some "", none, none, none, [], none, none, none, none, none, none, none⟩))
        "title" = none
    ∧ dictLookup (FetchBook.mergeRow [("ean", "111"), ("title", "")]
        (FetchBook.process_book_data
          ⟨some "New", none, none, none, [], none, none, none, none, none, none, none⟩))
        "title" = some "New" :=
  ⟨rfl, rfl⟩

theorem dictLookup_eq_some_find {α : Type} (d : List (String × α)) (k : String) (v : α)
    (h : dictLookup d k = some v) : d.find? (fun p => p.1 == k) = some (k, v) := by
  unfold dictLookup at h
  rcases Option.map_eq_some'.1 h with ⟨q, hq, he⟩
  have hk : q.1 = k := by
    have := List.find?_some hq
    simpa [beq_iff_eq] using this
  have : q = (k, v) := by
    cases q
    simp_all
  rw [hq, this]

theorem dictLookup_eq_none_find {α : Type} (d : List (String × α)) (k : String)
    (h : dictLookup d k = none) : d.find? (fun p => p.1 == k) = none :=
  Option.map_eq_none'.1 h

theorem pdOfRow_keys (row : Dict) :
    (FetchBook.pdOfRow row).map Prod.fst = row.map Prod.fst := by
  unfold FetchBook.pdOfRow
  rw [List.map_map]
  rfl

theorem pdOfRow_lookup (row : Dict) (k : String) :
    dictLookup (FetchBook.pdOfRow row) k = (dictLookup row k).map some := by
  unfold dictLookup FetchBook.pdOfRow
  rw [List.find?_map]
  have hpred : ((fun (p : String × Option String) => p.1 == k)
      ∘ (fun (p : String × String) => (p.1, some p.2)))
      = (fun (p : String × String) => p.1 == k) := rfl
  rw [hpred, Option.map_map, Option.map_map]
  rfl

theorem overlay_keys_nodup (row : Dict) (book : PyDict)
    (hrownd : (row.map Prod.fst).Nodup) :
    ((FetchBook.overlay row book).map Prod.fst).Nodup := by
  unfold FetchBook.overlay
  apply foldl_insert_keys_nodup
  rw [pdOfRow_keys]
  exact hrownd

theorem overlay_keys_mem (row : Dict) (book : PyDict) (k' : String)
    (h : k' ∈ (FetchBook.overlay row book).map Prod.fst) :
    k' ∈ book.map Prod.fst ∨ k' ∈ row.map Prod.fst := by
  unfold FetchBook.overlay at h
  have := (foldl_insert_keys_mem Prod.fst Prod.snd book (FetchBook.pdOfRow row) k').1 h
  rw [pdOfRow_keys] at this
  exact this

theorem overlay_lookup (row : Dict) (book : PyDict)
    (hbooknd : (book.map Prod.fst).Nodup) (k : String) :
    dictLookup (FetchBook.overlay row book) k =
      match book.find? (fun p => p.1 == k) with
      | some p => some p.2
      | none => (dictLookup row k).map some := by
  unfold FetchBook.overlay
  rw [foldl_insert_lookup Prod.fst Prod.snd book (FetchBook.pdOfRow row) hbooknd k]
  cases book.find? (fun p => p.1 == k) with
  | some p => rfl
  | none => exact pdOfRow_lookup row k

/-- Claim C1 amended: for a record whose identifier is matched, the merge
starts from the feed row's fields and overlays the enrichment fields with
the enrichment value winning on shared keys, then drops EVERY entry whose
value is null, empty, or the literal "null" — when an enrichment value is
null/empty/"null" the field is absent from the merged record (the feed's
original value is NOT restored), and a feed-only field with an
empty/"null" value is dropped too.  (Hypotheses: row and book keys are
distinct and already lowercase, as produced by `process_files` and
`process_book_data`.) -/
theorem mergeRow_value_policy (row : Dict) (book : PyDict)
    (hrownd : (row.map Prod.fst).Nodup)
    (hrowlc : ∀ p ∈ row, pyLower p.1 = p.1)
    (hbooknd : (book.map Prod.fst).Nodup)
    (hbooklc : ∀ p ∈ book, pyLower p.1 = p.1)
    (k : String) :
    dictLookup (FetchBook.mergeRow row book) k =
      match dictLookup book k with
      | some v => if FetchBook.keepVal v then v else none
      | none =>
        match dictLookup row k with
        | some v => if v ≠ "" ∧ v ≠ "null" then some v else none
        | none => none := by
  have hover_nd := overlay_keys_nodup row book hrownd
  have hfilt_sub : ((FetchBook.overlay row book).filter
      (fun p => FetchBook.keepVal p.2)).Sublist (FetchBook.overlay row book) :=
    List.filter_sublist _
  have hfilt_nd : (((FetchBook.overlay row book).filter
      (fun p => FetchBook.keepVal p.2)).map Prod.fst).Nodup :=
    (hfilt_sub.map Prod.fst).nodup hover_nd
  have hfilt_lc : ∀ p ∈ (FetchBook.overlay row book).filter
      (fun p => FetchBook.keepVal p.2), pyLower p.1 = p.1 := by
    intro p hp
    have hpk := overlay_keys_mem row book p.1
      (List.mem_map_of_mem Prod.fst (hfilt_sub.subset hp))
    rcases hpk with h1 | h1
    · rcases List.mem_map.1 h1 with ⟨q, hq, he⟩
      rw [← he]
      exact hbooklc q hq
    · rcases List.mem_map.1 h1 with ⟨q, hq, he⟩
      rw [← he]
      exact hrowlc q hq
  have hfilt_lnd : (((FetchBook.overlay row book).filter
      (fun p => FetchBook.keepVal p.2)).map (fun p => pyLower p.1)).Nodup := by
    have he : ((FetchBook.overlay row book).filter
        (fun p => FetchBook.keepVal p.2)).map (fun p => pyLower p.1)
        = ((FetchBook.overlay row book).filter
        (fun p => FetchBook.keepVal p.2)).map Prod.fst :=
      List.map_congr_left (fun p hp => hfilt_lc p hp)
    rw [he]
    exact hfilt_nd
  have hmerge : dictLookup (FetchBook.mergeRow row book) k =
      match ((FetchBook.overlay row book).filter
          (fun p => FetchBook.keepVal p.2)).find? (fun p => p.1 == k) with
      | some p => some (p.2.getD "")
      | none => none := by
    have hfl := foldl_insert_lookup
      (fun (p : String × Option String) => pyLower p.1)
      (fun (p : String × Option String) => p.2.getD "")
      ((FetchBook.overlay row book).filter (fun p => FetchBook.keepVal p.2))
      [] hfilt_lnd k
    unfold FetchBook.mergeRow
    rw [hfl, find?_congr (fun (p : String × Option String) => pyLower p.1 == k)
      (fun (p : String × Option String) => p.1 == k) _
      (fun p hp => by
        show (pyLower p.1 == k) = (p.1 == k)
        rw [hfilt_lc p hp])]
    cases ((FetchBook.overlay row book).filter
        (fun p => FetchBook.keepVal p.2)).find? (fun p => p.1 == k) with
    | some p => rfl
    | none => rfl
  rw [hmerge,
    find?_filter_of_nodup (FetchBook.overlay row book) (fun p => FetchBook.keepVal p.2)
      k hover_nd]
  have hov := overlay_lookup row book hbooknd k
  cases hb : dictLookup book k with
  | some v =>
    rw [dictLookup_eq_some_find book k v hb] at hov
    have hov2 : dictLookup (FetchBook.overlay row book) k = some v := hov
    rw [dictLookup_eq_some_find _ k v hov2]
    cases v with
    | none => rfl
    | some s =>
      rcases Bool.eq_false_or_eq_true (FetchBook.keepVal (some s)) with hkeep | hkeep
      · simp [hkeep]
      · simp [hkeep]
  | none =>
    rw [dictLookup_eq_none_find book k hb] at hov
    cases hr : dictLookup row k with
    | some v =>
      rw [hr] at hov
      have hov2 : dictLookup (FetchBook.overlay row book) k = some (some v) := hov
      rw [dictLookup_eq_some_find _ k (some v) hov2]
      by_cases hv : v ≠ "" ∧ v ≠ "null"
      · have hk2 : FetchBook.keepVal (some v) = true := by
          unfold FetchBook.keepVal
          exact decide_eq_true hv
        simp [hk2, hv]
      · have hk2 : FetchBook.keepVal (some v) = false := by
          unfold FetchBook.keepVal
          exact decide_eq_false hv
        simp [hk2, hv]
    | none =>
      rw [hr] at hov
      have hov2 : dictLookup (FetchBook.overlay row book) k = none := hov
      rw [dictLookup_eq_none_find _ k hov2]

/-- Witness for the amended C1 at the two spec examples: the enrichment
value `""` leaves the merged record with no `title` (not `"Old"`), and the
enrichment value `"New"` wins over the feed's `""`. -/
theorem mergeRow_value_policy_witness :
    dictLookup (FetchBook.mergeRow [("ean", "111"), ("title", "Old")]
        [("title", some "")]) "title" = none
    ∧ dictLookup (FetchBook.mergeRow [("ean", "111"), ("title", "")]
        [("title", some "New")]) "title" = some "New" := by
  constructor
  · have h := mergeRow_value_policy [("ean", "111"), ("title", "Old")]
      [("title", some "")] (by decide) (by decide) (by decide) (by decide) "title"
    rw [h]
    rfl
  · have h := mergeRow_value_policy [("ean", "111"), ("title", "")]
      [("title", some "New")] (by decide) (by decide) (by decide) (by decide) "title"
    rw [h]
    rfl

end EbayListing
